import Mathlib

/-!
Verification of the bank-management ledger: a shallow embedding of the
in-memory storage (`MemStorage` in the server storage module) together with
the Express route handlers (`server/routes.ts`) that wrap it, and proofs of
the specified properties.

Modelling conventions:
* JavaScript numbers carrying money amounts and balances (the `real` columns)
  are modelled as exact rationals `Rat`; floating-point rounding is out of
  scope.
* `randomUUID()` identifiers are modelled as fresh natural numbers drawn from
  a counter `nextId` in the state (all that matters is freshness).
* `new Date()` timestamps are modelled by a logical clock `now` that ticks at
  every record creation, so later records carry strictly larger timestamps.
* The two JavaScript `Map`s keyed by `id` are modelled as lists in insertion
  order (`Map` iteration order); `Map.set` on an existing key is an in-place
  value replacement, modelled by `List.map` over the list.  A JavaScript `Map`
  cannot hold two entries with the same key, so states whose account lists
  repeat an `id` do not correspond to any run-time state; the predicate
  `NodupIds` captures this representation invariant where proofs need it.
* Route-handler failures are modelled by the error taxonomy of the design
  document: the handler message "Invalid account data" / "Amount must be
  positive" is `invalidInput`, "already exists" is `duplicateAccount`,
  "not found" is `accountNotFound`, "Insufficient funds" is
  `insufficientFunds`, and "Cannot transfer to the same account" is
  `sameAccountTransfer`.
-/

/-- An account record (`accounts` table / `Account` type in the schema). -/
structure Account where
  id : Nat
  accountNumber : Int
  name : String
  balance : Rat
  createdAt : Nat
deriving DecidableEq, Repr

/-- A transaction record (`transactions` table / `Transaction` type).  The
`type` field is a free-form string in the source (`'deposit'`, `'withdraw'`,
`'transfer'`), kept as `String` here. -/
structure Transaction where
  id : Nat
  type : String
  fromAccountId : Option Nat
  toAccountId : Option Nat
  amount : Rat
  createdAt : Nat
deriving DecidableEq, Repr

/-- The payload accepted by `insertAccountSchema` (the drizzle-zod insert
schema with `id` and `createdAt` omitted): an account number, a name, and an
optional balance (the column has a database default of 0).  The generated
schema checks only that each field has the right primitive type; it carries
no range refinements, which is why this well-typed record is all a caller
must supply. -/
structure InsertAccount where
  accountNumber : Int
  name : String
  balance : Option Rat
deriving DecidableEq, Repr

/-- The whole `MemStorage` state: the two insertion-ordered maps plus the
freshness counter for `randomUUID()` and the logical clock for `Date()`. -/
structure State where
  accounts : List Account
  transactions : List Transaction
  nextId : Nat
  now : Nat
deriving DecidableEq, Repr

/-- The state of a freshly constructed `MemStorage` (two empty maps). -/
def emptyState : State := ⟨[], [], 0, 0⟩

/-- Errors surfaced by the route handlers, named after the design taxonomy. -/
inductive BankError where
  | invalidInput
  | duplicateAccount
  | accountNotFound
  | insufficientFunds
  | sameAccountTransfer
deriving DecidableEq, Repr

/-- `MemStorage.getAccount`: lookup by `id` (a `Map.get`). -/
def getAccount (s : State) (id : Nat) : Option Account :=
  s.accounts.find? (fun a => a.id == id)

/-- `MemStorage.getAccountByNumber`: `Array.from(values()).find(...)`, the
first account (in insertion order) whose `accountNumber` matches. -/
def getAccountByNumber (s : State) (accountNumber : Int) : Option Account :=
  s.accounts.find? (fun a => a.accountNumber == accountNumber)

/-- `MemStorage.createAccount`: reject an existing account number, otherwise
insert a record with a fresh id, the supplied balance defaulting to 0, and
the current time. -/
def storageCreateAccount (s : State) (ia : InsertAccount) :
    Except BankError Account × State :=
  match getAccountByNumber s ia.accountNumber with
  | some _ => (.error .duplicateAccount, s)
  | none =>
    let account : Account :=
      { id := s.nextId
        accountNumber := ia.accountNumber
        name := ia.name
        balance := ia.balance.getD 0
        createdAt := s.now }
    (.ok account,
     { s with
        accounts := s.accounts ++ [account]
        nextId := s.nextId + 1
        now := s.now + 1 })

/-- `MemStorage.updateAccountBalance`: find the account by number, then
`Map.set(account.id, { ...account, balance: newBalance })` — replace the
entry holding that id. -/
def updateAccountBalance (s : State) (accountNumber : Int) (newBalance : Rat) :
    Except BankError Account × State :=
  match getAccountByNumber s accountNumber with
  | none => (.error .accountNotFound, s)
  | some account =>
    let updatedAccount : Account := { account with balance := newBalance }
    (.ok updatedAccount,
     { s with
        accounts := s.accounts.map
          (fun b => if b.id = account.id then updatedAccount else b) })

/-- `MemStorage.createTransaction`: append a record with a fresh id and the
current time. -/
def createTransaction (s : State) (type : String)
    (fromAccountId toAccountId : Option Nat) (amount : Rat) :
    Transaction × State :=
  let tx : Transaction :=
    { id := s.nextId
      type := type
      fromAccountId := fromAccountId
      toAccountId := toAccountId
      amount := amount
      createdAt := s.now }
  (tx,
   { s with
      transactions := s.transactions ++ [tx]
      nextId := s.nextId + 1
      now := s.now + 1 })

/-- `POST /api/accounts`: `insertAccountSchema.parse` (type-shape checks only,
so a well-typed `InsertAccount` always passes), then
`storage.createAccount`, then an initial `deposit` transaction exactly when
the created balance is positive. -/
def createAccountRoute (s : State) (ia : InsertAccount) :
    Except BankError Account × State :=
  match storageCreateAccount s ia with
  | (.error e, s1) => (.error e, s1)
  | (.ok account, s1) =>
    if account.balance > 0 then
      let (_, s2) :=
        createTransaction s1 "deposit" none (some account.id) account.balance
      (.ok account, s2)
    else
      (.ok account, s1)

/-- `POST /api/accounts/:accountNumber/deposit`: positive-amount guard
(`!amount || amount <= 0`), existence check, balance update, then a
`deposit` transaction. -/
def depositRoute (s : State) (accountNumber : Int) (amount : Rat) :
    Except BankError Account × State :=
  if amount ≤ 0 then (.error .invalidInput, s)
  else
    match getAccountByNumber s accountNumber with
    | none => (.error .accountNotFound, s)
    | some account =>
      let newBalance := account.balance + amount
      match updateAccountBalance s accountNumber newBalance with
      | (.error e, s1) => (.error e, s1)
      | (.ok updatedAccount, s1) =>
        let (_, s2) :=
          createTransaction s1 "deposit" none (some account.id) amount
        (.ok updatedAccount, s2)

/-- `POST /api/accounts/:accountNumber/withdraw`: positive-amount guard,
existence check, insufficient-funds check (`account.balance < amount`),
balance update, then a `withdraw` transaction. -/
def withdrawRoute (s : State) (accountNumber : Int) (amount : Rat) :
    Except BankError Account × State :=
  if amount ≤ 0 then (.error .invalidInput, s)
  else
    match getAccountByNumber s accountNumber with
    | none => (.error .accountNotFound, s)
    | some account =>
      if account.balance < amount then (.error .insufficientFunds, s)
      else
        let newBalance := account.balance - amount
        match updateAccountBalance s accountNumber newBalance with
        | (.error e, s1) => (.error e, s1)
        | (.ok updatedAccount, s1) =>
          let (_, s2) :=
            createTransaction s1 "withdraw" (some account.id) none amount
          (.ok updatedAccount, s2)

/-- `POST /api/accounts/transfer`: positive-amount guard, same-account guard
(before any lookup), the two lookups, insufficient-funds check on the source,
the two balance updates (computed from the balances read before either
write), then a single `transfer` transaction. -/
def transferRoute (s : State) (fromAccountNumber toAccountNumber : Int)
    (amount : Rat) : Except BankError (Account × Account) × State :=
  if amount ≤ 0 then (.error .invalidInput, s)
  else if fromAccountNumber = toAccountNumber then
    (.error .sameAccountTransfer, s)
  else
    match getAccountByNumber s fromAccountNumber,
          getAccountByNumber s toAccountNumber with
    | some fromAccount, some toAccount =>
      if fromAccount.balance < amount then (.error .insufficientFunds, s)
      else
        let newFromBalance := fromAccount.balance - amount
        let newToBalance := toAccount.balance + amount
        let (_, s1) := updateAccountBalance s fromAccountNumber newFromBalance
        let (_, s2) := updateAccountBalance s1 toAccountNumber newToBalance
        let (_, s3) :=
          createTransaction s2 "transfer"
            (some fromAccount.id) (some toAccount.id) amount
        (.ok ({ fromAccount with balance := newFromBalance },
              { toAccount with balance := newToBalance }), s3)
    | _, _ => (.error .accountNotFound, s)

deriving instance DecidableEq for Except

/-- Stable insertion step for `getAllAccounts`' ascending sort
(`sort((a, b) => a.accountNumber - b.accountNumber)`; `Array.sort` is
stable, so an element is inserted after all elements it does not strictly
precede). -/
def insertAsc (a : Account) : List Account → List Account
  | [] => [a]
  | b :: rest =>
    if a.accountNumber < b.accountNumber then a :: b :: rest
    else b :: insertAsc a rest

/-- Stable sort by ascending `accountNumber`. -/
def sortAsc : List Account → List Account
  | [] => []
  | a :: rest => insertAsc a (sortAsc rest)

/-- `MemStorage.getAllAccounts`: all accounts sorted by ascending account
number. -/
def getAllAccounts (s : State) : List Account :=
  sortAsc s.accounts

/-- Stable insertion step for `getRecentTransactions`' descending sort
(`sort((a, b) => b.createdAt - a.createdAt)`; stability keeps an element
before later-inserted elements with the same timestamp). -/
def insertDesc (t : Transaction) : List Transaction → List Transaction
  | [] => [t]
  | u :: rest =>
    if u.createdAt ≤ t.createdAt then t :: u :: rest
    else u :: insertDesc t rest

/-- Stable sort by descending `createdAt`. -/
def sortDesc : List Transaction → List Transaction
  | [] => []
  | t :: rest => insertDesc t (sortDesc rest)

/-- The counterparty annotation attached to a transaction by
`getRecentTransactions` (`Pick<Account, 'accountNumber' | 'name'>`). -/
structure CounterpartyInfo where
  accountNumber : Int
  name : String
deriving DecidableEq, Repr

/-- `TransactionWithDetails`: a transaction plus the optional counterparty
annotations. -/
structure TransactionWithDetails where
  transaction : Transaction
  fromAccount : Option CounterpartyInfo
  toAccount : Option CounterpartyInfo
deriving DecidableEq, Repr

/-- The annotation pass of `getRecentTransactions`: resolve each side's
account id, and silently leave the annotation absent when the id is null or
the account cannot be found. -/
def annotate (s : State) (t : Transaction) : TransactionWithDetails :=
  { transaction := t
    fromAccount :=
      t.fromAccountId.bind fun fid =>
        (getAccount s fid).map fun a => ⟨a.accountNumber, a.name⟩
    toAccount :=
      t.toAccountId.bind fun tid =>
        (getAccount s tid).map fun a => ⟨a.accountNumber, a.name⟩ }

/-- `MemStorage.getRecentTransactions`: sort all transactions newest-first,
keep the first `limit`, and annotate each with counterparty details. -/
def getRecentTransactions (s : State) (limit : Nat) :
    List TransactionWithDetails :=
  (((sortDesc s.transactions).take limit)).map (annotate s)

/-- The dashboard aggregate.  The source formats the two sums as dollar
strings (`$…`) for display; the numeric values are modelled here, the
formatting being presentation only. -/
structure DashboardStats where
  totalAccounts : Nat
  totalDeposits : Rat
  totalWithdrawals : Rat
  activeTransfers : Nat
deriving DecidableEq, Repr

/-- `MemStorage.getDashboardStats`: account count via `getAllAccounts`, the
two filtered `reduce` sums, and the count of transfer transactions. -/
def getDashboardStats (s : State) : DashboardStats :=
  let accounts := getAllAccounts s
  let totalDeposits :=
    (s.transactions.filter (fun t => t.type == "deposit")).foldl
      (fun sum t => sum + t.amount) 0
  let totalWithdrawals :=
    (s.transactions.filter (fun t => t.type == "withdraw")).foldl
      (fun sum t => sum + t.amount) 0
  let activeTransfers :=
    (s.transactions.filter (fun t => t.type == "transfer")).length
  { totalAccounts := accounts.length
    totalDeposits := totalDeposits
    totalWithdrawals := totalWithdrawals
    activeTransfers := activeTransfers }

/-- One mutating ledger operation, as invoked through the HTTP routes. -/
inductive Op where
  | create (ia : InsertAccount)
  | deposit (accountNumber : Int) (amount : Rat)
  | withdraw (accountNumber : Int) (amount : Rat)
  | transfer (fromAccountNumber toAccountNumber : Int) (amount : Rat)
deriving DecidableEq, Repr

/-- The state after one operation (successful or failed — a failed handler
leaves the state unchanged). -/
def applyOp (s : State) : Op → State
  | .create ia => (createAccountRoute s ia).2
  | .deposit n amt => (depositRoute s n amt).2
  | .withdraw n amt => (withdrawRoute s n amt).2
  | .transfer f t amt => (transferRoute s f t amt).2

/-- The state after a sequence of operations. -/
def runOps (s : State) (ops : List Op) : State :=
  ops.foldl applyOp s

/-- The states reachable from a freshly constructed storage by any sequence
of route calls. -/
inductive Reachable : State → Prop
  | empty : Reachable emptyState
  | step (s : State) (op : Op) : Reachable s → Reachable (applyOp s op)

/-- The account lists representable by the JavaScript `Map` (keyed by `id`):
no two entries share an id. -/
def NodupIds (s : State) : Prop :=
  (s.accounts.map (fun a => a.id)).Nodup

instance (s : State) : Decidable (NodupIds s) := by
  unfold NodupIds; infer_instance

/-- The sum of all account balances. -/
def totalBalance (s : State) : Rat :=
  (s.accounts.map (fun a => a.balance)).sum

/-- Every prefix of the transfer sequence succeeds when run from the evolving
state (the "sequence of successful transfers" of the conservation property). -/
def allTransfersOk : State → List (Int × Int × Rat) → Bool
  | _, [] => true
  | s, (f, t, amt) :: rest =>
    (match (transferRoute s f t amt).1 with
     | .ok _ => true
     | .error _ => false) &&
    allTransfersOk (transferRoute s f t amt).2 rest

/-- The state after a sequence of transfer calls. -/
def runTransfers (s : State) (l : List (Int × Int × Rat)) : State :=
  l.foldl (fun s p => (transferRoute s p.1 p.2.1 p.2.2).2) s

/-- The run-time invariant of `MemStorage` states: ids are below the
freshness counter, transaction timestamps are below the clock and strictly
increase along the (insertion-ordered) list, and account ids are unique
(the `Map`-key property). -/
structure LedgerInv (s : State) : Prop where
  accId : ∀ a ∈ s.accounts, a.id < s.nextId
  txTime : ∀ t ∈ s.transactions, t.createdAt < s.now
  txSorted : s.transactions.Pairwise (fun t u => t.createdAt < u.createdAt)
  nodupIds : NodupIds s

/-- Non-negativity of every account balance in a state. -/
def NonNeg (s : State) : Prop := ∀ a ∈ s.accounts, 0 ≤ a.balance

instance (s : State) : Decidable (NonNeg s) := by
  unfold NonNeg; infer_instance

/-- The restriction on operation sequences forced by the missing range
validation: each createAccount carries a non-negative initial balance
(an absent balance defaults to 0). -/
def createNonNeg : Op → Prop
  | .create ia => 0 ≤ ia.balance.getD 0
  | .deposit _ _ => True
  | .withdraw _ _ => True
  | .transfer _ _ _ => True

instance : DecidablePred createNonNeg := by
  intro op
  cases op with
  | create ia => exact inferInstanceAs (Decidable (0 ≤ ia.balance.getD 0))
  | deposit n amt => exact .isTrue trivial
  | withdraw n amt => exact .isTrue trivial
  | transfer f t amt => exact .isTrue trivial


/-- The frame predicate for balance mutations: the account list keeps its
length, every position keeps its `id`, `accountNumber`, `name` and
`createdAt`, and every position whose account number is not targeted keeps
its whole record (in particular its balance). -/
def accountsFrame (old new : List Account) (targets : List Int) : Prop :=
  new.length = old.length ∧
  ∀ i (h1 : i < old.length) (h2 : i < new.length),
    ((new.get ⟨i, h2⟩).id = (old.get ⟨i, h1⟩).id ∧
     (new.get ⟨i, h2⟩).accountNumber = (old.get ⟨i, h1⟩).accountNumber ∧
     (new.get ⟨i, h2⟩).name = (old.get ⟨i, h1⟩).name ∧
     (new.get ⟨i, h2⟩).createdAt = (old.get ⟨i, h1⟩).createdAt) ∧
    ((old.get ⟨i, h1⟩).accountNumber ∉ targets →
      new.get ⟨i, h2⟩ = old.get ⟨i, h1⟩)

/-- A demonstration state: Alice opened account #1 with 100, Bob opened
account #2 with 0, and 40 was transferred from #1 to #2. -/
def sDemo : State :=
  runOps emptyState
    [.create ⟨1, "Alice", some 100⟩, .create ⟨2, "Bob", none⟩,
     .transfer 1 2 40]

/-- The state after creating account #200 "Bob" with balance 0. -/
def s200 : State := runOps emptyState [.create ⟨200, "Bob", some 0⟩]

/-- The state after creating account #1 "Alice" with balance 5. -/
def sAlice : State := runOps emptyState [.create ⟨1, "Alice", some 5⟩]

/-- The state after creating account #1 "Alice" with 100 and account #2
"Bob" with 0 (the pre-transfer state of the specification scenario). -/
def sTwo : State :=
  runOps emptyState
    [.create ⟨1, "Alice", some 100⟩, .create ⟨2, "Bob", none⟩]

/-- A found account is a member of the account list. -/
lemma getAccountByNumber_mem {s : State} {n : Int} {a : Account}
    (h : getAccountByNumber s n = some a) : a ∈ s.accounts :=
  List.mem_of_find?_eq_some h

/-- A found account carries the looked-up account number. -/
lemma getAccountByNumber_number {s : State} {n : Int} {a : Account}
    (h : getAccountByNumber s n = some a) : a.accountNumber = n := by
  have := List.find?_some h
  simpa using this

/-- Finding by account number commutes with mapping a function that does not
touch the account numbers of the list's elements. -/
lemma find?_number_map (f : Account → Account) (l : List Account)
    (hf : ∀ b ∈ l, (f b).accountNumber = b.accountNumber) (n : Int) :
    (l.map f).find? (fun a => a.accountNumber == n) =
      (l.find? (fun a => a.accountNumber == n)).map f := by
  induction l with
  | nil => rfl
  | cons b rest ih =>
    have hb := hf b (List.mem_cons_self b rest)
    by_cases h : b.accountNumber = n
    · rw [List.map_cons,
        List.find?_cons_of_pos _ (by simp [hb, h]),
        List.find?_cons_of_pos _ (by simp [h])]
      rfl
    · rw [List.map_cons,
        List.find?_cons_of_neg _ (by simp [hb, h]),
        List.find?_cons_of_neg _ (by simp [h]),
        ih fun c hc => hf c (List.mem_cons_of_mem b hc)]

/-- In a list with unique ids, an id determines the element. -/
lemma eq_of_id_eq {l : List Account} (hn : (l.map (fun x => x.id)).Nodup)
    {a b : Account} (hb : b ∈ l) (ha : a ∈ l) (h : b.id = a.id) : b = a :=
  List.inj_on_of_nodup_map hn hb ha h

/-- Replacing the entry holding a given id does not change the id sequence. -/
lemma ids_map_replace (l : List Account) (i : Nat) (u : Account)
    (hu : u.id = i) :
    (l.map (fun b => if b.id = i then u else b)).map (fun x => x.id) =
      l.map (fun x => x.id) := by
  induction l with
  | nil => rfl
  | cons b rest ih =>
    by_cases h : b.id = i <;> simp [h, hu, ih]

/-- If no entry holds the id, the replacement map is the identity. -/
lemma map_replace_of_not_mem (l : List Account) (i : Nat) (u : Account)
    (h : ∀ b ∈ l, b.id ≠ i) :
    l.map (fun b => if b.id = i then u else b) = l := by
  induction l with
  | nil => rfl
  | cons b rest ih =>
    have hb : b.id ≠ i := h b (List.mem_cons_self b rest)
    simp only [List.map_cons, if_neg hb]
    rw [ih fun c hc => h c (List.mem_cons_of_mem b hc)]

/-- Effect of the balance-replacement map on the sum of balances, when ids
are unique: the old balance of the replaced entry leaves the sum and the new
one enters it. -/
lemma sum_map_replace (l : List Account) (a u : Account)
    (ha : a ∈ l) (hn : (l.map (fun x => x.id)).Nodup) :
    ((l.map (fun b => if b.id = a.id then u else b)).map
        (fun x => x.balance)).sum =
      (l.map (fun x => x.balance)).sum - a.balance + u.balance := by
  induction l with
  | nil => cases ha
  | cons b rest ih =>
    rw [List.map_cons, List.nodup_cons] at hn
    by_cases h : b.id = a.id
    · obtain rfl : a = b := by
        rcases List.mem_cons.mp ha with h' | h'
        · exact h'
        · exact absurd (show b.id ∈ List.map (fun x => x.id) rest by
            rw [h]; exact List.mem_map.mpr ⟨a, h', rfl⟩) hn.1
      have hrest : ∀ c ∈ rest, c.id ≠ a.id := by
        intro c hc hcid
        exact hn.1 (show a.id ∈ List.map (fun x => x.id) rest from
          hcid ▸ List.mem_map.mpr ⟨c, hc, rfl⟩)
      simp only [List.map_cons, eq_self_iff_true, if_true,
        map_replace_of_not_mem rest a.id u hrest, List.sum_cons]
      ring
    · have ha' : a ∈ rest := by
        rcases List.mem_cons.mp ha with h' | h'
        · exact absurd (congrArg (fun x => x.id) h'.symm) h
        · exact h'
      simp only [List.map_cons, if_neg h, List.sum_cons, ih ha' hn.2]
      ring

lemma inv_emptyState : LedgerInv emptyState :=
  ⟨by simp [emptyState], by simp [emptyState], by simp [emptyState],
   by simp [NodupIds, emptyState]⟩

lemma inv_updateAccountBalance (s : State) (n : Int) (nb : Rat)
    (h : LedgerInv s) : LedgerInv (updateAccountBalance s n nb).2 := by
  unfold updateAccountBalance
  cases hfind : getAccountByNumber s n with
  | none => exact h
  | some a =>
    refine ⟨?_, h.txTime, h.txSorted, ?_⟩
    · intro b hb
      simp only at hb
      rcases List.mem_map.mp hb with ⟨c, hc, rfl⟩
      by_cases h' : c.id = a.id
      · simpa [h'] using h.accId a (getAccountByNumber_mem hfind)
      · simpa [h'] using h.accId c hc
    · show (List.map _ _).Nodup
      rw [ids_map_replace s.accounts a.id { a with balance := nb } rfl]
      exact h.nodupIds

lemma inv_createTransaction (s : State) (ty : String)
    (fid tid : Option Nat) (amt : Rat) (h : LedgerInv s) :
    LedgerInv (createTransaction s ty fid tid amt).2 := by
  refine ⟨?_, ?_, ?_, h.nodupIds⟩
  · intro a ha
    exact Nat.lt_succ_of_lt (h.accId a ha)
  · intro t ht
    rcases List.mem_append.mp ht with ht' | ht'
    · exact Nat.lt_succ_of_lt (h.txTime t ht')
    · simp only [List.mem_singleton] at ht'
      subst ht'
      exact Nat.lt_succ_self _
  · rw [show (createTransaction s ty fid tid amt).2.transactions =
        s.transactions ++ [⟨s.nextId, ty, fid, tid, amt, s.now⟩] from rfl]
    refine List.pairwise_append.mpr ⟨h.txSorted, List.pairwise_singleton _ _, ?_⟩
    intro t ht u hu
    simp only [List.mem_singleton] at hu
    subst hu
    exact h.txTime t ht

lemma inv_storageCreateAccount (s : State) (ia : InsertAccount)
    (h : LedgerInv s) : LedgerInv (storageCreateAccount s ia).2 := by
  unfold storageCreateAccount
  cases hfind : getAccountByNumber s ia.accountNumber with
  | some a => exact h
  | none =>
    refine ⟨?_, ?_, h.txSorted, ?_⟩
    · intro a ha
      rcases List.mem_append.mp ha with ha' | ha'
      · exact Nat.lt_succ_of_lt (h.accId a ha')
      · simp only [List.mem_singleton] at ha'
        subst ha'
        exact Nat.lt_succ_self _
    · intro t ht
      exact Nat.lt_succ_of_lt (h.txTime t ht)
    · show (List.map _ _).Nodup
      rw [List.map_append]
      refine List.Nodup.append h.nodupIds (by simp) ?_
      intro i hi hj
      simp only [List.map_cons, List.map_nil, List.mem_singleton] at hj
      subst hj
      rcases List.mem_map.mp hi with ⟨a, ha, hai⟩
      exact absurd (hai ▸ h.accId a ha) (lt_irrefl _)

lemma inv_createAccountRoute (s : State) (ia : InsertAccount)
    (h : LedgerInv s) : LedgerInv (createAccountRoute s ia).2 := by
  have h1 := inv_storageCreateAccount s ia h
  unfold createAccountRoute
  cases hsc : storageCreateAccount s ia with
  | mk r s1 =>
    rw [hsc] at h1
    cases r with
    | error e => exact h1
    | ok account =>
      by_cases hb : account.balance > 0
      · simp only [if_pos hb]
        exact inv_createTransaction s1 "deposit" none (some account.id)
          account.balance h1
      · simp only [if_neg hb]
        exact h1

lemma inv_depositRoute (s : State) (n : Int) (amt : Rat)
    (h : LedgerInv s) : LedgerInv (depositRoute s n amt).2 := by
  unfold depositRoute
  by_cases ha : amt ≤ 0
  · simp only [if_pos ha]
    exact h
  · simp only [if_neg ha]
    cases hfind : getAccountByNumber s n with
    | none => exact h
    | some account =>
      dsimp only
      have h1 := inv_updateAccountBalance s n (account.balance + amt) h
      cases hup : updateAccountBalance s n (account.balance + amt) with
      | mk r s1 =>
        rw [hup] at h1
        cases r with
        | error e => exact h1
        | ok ua =>
          exact inv_createTransaction s1 "deposit" none (some account.id) amt h1

lemma inv_withdrawRoute (s : State) (n : Int) (amt : Rat)
    (h : LedgerInv s) : LedgerInv (withdrawRoute s n amt).2 := by
  unfold withdrawRoute
  by_cases ha : amt ≤ 0
  · simp only [if_pos ha]
    exact h
  · simp only [if_neg ha]
    cases hfind : getAccountByNumber s n with
    | none => exact h
    | some account =>
      by_cases hbal : account.balance < amt
      · simp only [if_pos hbal]
        exact h
      · simp only [if_neg hbal]
        have h1 := inv_updateAccountBalance s n (account.balance - amt) h
        cases hup : updateAccountBalance s n (account.balance - amt) with
        | mk r s1 =>
          rw [hup] at h1
          cases r with
          | error e => exact h1
          | ok ua =>
            exact inv_createTransaction s1 "withdraw" (some account.id) none
              amt h1

lemma inv_transferRoute (s : State) (f t : Int) (amt : Rat)
    (h : LedgerInv s) : LedgerInv (transferRoute s f t amt).2 := by
  unfold transferRoute
  by_cases ha : amt ≤ 0
  · simp only [if_pos ha]
    exact h
  · simp only [if_neg ha]
    by_cases hft : f = t
    · simp only [if_pos hft]
      exact h
    · simp only [if_neg hft]
      cases hf : getAccountByNumber s f with
      | none => exact h
      | some fa =>
        cases ht : getAccountByNumber s t with
        | none => exact h
        | some ta =>
          by_cases hbal : fa.balance < amt
          · simp only [if_pos hbal]
            exact h
          · simp only [if_neg hbal]
            have h1 := inv_updateAccountBalance s f (fa.balance - amt) h
            cases hup1 : updateAccountBalance s f (fa.balance - amt) with
            | mk r1 s1 =>
              rw [hup1] at h1
              have h2 := inv_updateAccountBalance s1 t (ta.balance + amt) h1
              cases hup2 : updateAccountBalance s1 t (ta.balance + amt) with
              | mk r2 s2 =>
                rw [hup2] at h2
                exact inv_createTransaction s2 "transfer" (some fa.id)
                  (some ta.id) amt h2

lemma inv_applyOp (s : State) (op : Op) (h : LedgerInv s) :
    LedgerInv (applyOp s op) := by
  cases op with
  | create ia => exact inv_createAccountRoute s ia h
  | deposit n amt => exact inv_depositRoute s n amt h
  | withdraw n amt => exact inv_withdrawRoute s n amt h
  | transfer f t amt => exact inv_transferRoute s f t amt h

lemma reachable_inv {s : State} (h : Reachable s) : LedgerInv s := by
  induction h with
  | empty => exact inv_emptyState
  | step s op _ ih => exact inv_applyOp s op ih

/-- Inserting below every element of a descending-sorted list lands at the
end. -/
lemma insertDesc_of_lt (t : Transaction) (l : List Transaction)
    (h : ∀ u ∈ l, t.createdAt < u.createdAt) : insertDesc t l = l ++ [t] := by
  induction l with
  | nil => rfl
  | cons u rest ih =>
    have hu : ¬ u.createdAt ≤ t.createdAt :=
      not_le.mpr (h u (List.mem_cons_self u rest))
    simp only [insertDesc, if_neg hu, List.cons_append]
    rw [ih fun v hv => h v (List.mem_cons_of_mem u hv)]

/-- On a list whose timestamps strictly increase (the insertion order of
reachable states), the newest-first sort is exactly list reversal. -/
lemma sortDesc_eq_reverse (l : List Transaction)
    (h : l.Pairwise (fun t u => t.createdAt < u.createdAt)) :
    sortDesc l = l.reverse := by
  induction l with
  | nil => rfl
  | cons t rest ih =>
    rw [List.pairwise_cons] at h
    simp only [sortDesc, List.reverse_cons]
    rw [ih h.2,
      insertDesc_of_lt t rest.reverse
        (fun u hu => h.1 u (List.mem_reverse.mp hu))]

lemma insertAsc_length (a : Account) (l : List Account) :
    (insertAsc a l).length = l.length + 1 := by
  induction l with
  | nil => rfl
  | cons b rest ih =>
    by_cases h : a.accountNumber < b.accountNumber <;>
      simp [insertAsc, h, ih]

/-- The ascending sort of `getAllAccounts` keeps the number of accounts. -/
lemma sortAsc_length (l : List Account) : (sortAsc l).length = l.length := by
  induction l with
  | nil => rfl
  | cons a rest ih => simp [sortAsc, insertAsc_length, ih]

/-- The `reduce`-style running sum equals the sum of the mapped amounts. -/
lemma foldl_add_amount (l : List Transaction) (init : Rat) :
    l.foldl (fun sum t => sum + t.amount) init =
      init + (l.map (fun t => t.amount)).sum := by
  induction l generalizing init with
  | nil => simp
  | cons t rest ih =>
    simp only [List.foldl_cons, List.map_cons, List.sum_cons, ih]
    ring

/-- Unfolded form of a successful `updateAccountBalance`. -/
lemma updateAccountBalance_eq (s : State) (n : Int) (nb : Rat) (a : Account)
    (h : getAccountByNumber s n = some a) :
    updateAccountBalance s n nb =
      (.ok { a with balance := nb },
       { s with accounts := (s.accounts.map
          (fun b => if b.id = a.id then { a with balance := nb } else b)) }) := by
  unfold updateAccountBalance
  rw [h]

/-- `updateAccountBalance` keeps account ids unique. -/
lemma nodupIds_update (s : State) (n : Int) (nb : Rat)
    (hids : NodupIds s) : NodupIds (updateAccountBalance s n nb).2 := by
  unfold updateAccountBalance
  cases hfind : getAccountByNumber s n with
  | none => exact hids
  | some a =>
    show (List.map _ _).Nodup
    rw [ids_map_replace s.accounts a.id { a with balance := nb } rfl]
    exact hids

/-- Looking an account up after `updateAccountBalance` is looking it up
before and then applying the replacement (ids unique). -/
lemma getAccountByNumber_update (s : State) (n m : Int) (nb : Rat)
    (a : Account) (hids : NodupIds s) (h : getAccountByNumber s n = some a) :
    getAccountByNumber (updateAccountBalance s n nb).2 m =
      (getAccountByNumber s m).map
        (fun b => if b.id = a.id then { a with balance := nb } else b) := by
  rw [updateAccountBalance_eq s n nb a h]
  show (s.accounts.map _).find? _ = _
  refine find?_number_map _ s.accounts ?_ m
  intro b hb
  by_cases hid : b.id = a.id
  · have hba : b = a := eq_of_id_eq hids hb (getAccountByNumber_mem h) hid
    subst hba
    simp [hid]
  · simp [hid]

/-- The updated account stays in the account list. -/
lemma mem_update_of_ne_id (s : State) (n : Int) (nb : Rat) (a c : Account)
    (h : getAccountByNumber s n = some a) (hc : c ∈ s.accounts)
    (hne : c.id ≠ a.id) : c ∈ (updateAccountBalance s n nb).2.accounts := by
  rw [updateAccountBalance_eq s n nb a h]
  show c ∈ s.accounts.map _
  refine List.mem_map.mpr ⟨c, hc, ?_⟩
  simp [hne]

/-- Full characterisation of a successful transfer: the two balance writes
(each a `Map.set` keyed by account id), the appended `transfer` record, and
the response pair carrying the two recomputed accounts. -/
lemma transferRoute_success (s : State) (f t : Int) (amt : Rat)
    (fa ta : Account) (hids : NodupIds s)
    (hf : getAccountByNumber s f = some fa)
    (ht : getAccountByNumber s t = some ta)
    (hne : f ≠ t) (hamt : 0 < amt) (hbal : amt ≤ fa.balance) :
    transferRoute s f t amt =
      (.ok ({ fa with balance := fa.balance - amt },
            { ta with balance := ta.balance + amt }),
       { accounts := (s.accounts.map
            (fun b => if b.id = fa.id then
              { fa with balance := fa.balance - amt } else b)).map
            (fun b => if b.id = ta.id then
              { ta with balance := ta.balance + amt } else b)
         transactions := s.transactions ++
           [⟨s.nextId, "transfer", some fa.id, some ta.id, amt, s.now⟩]
         nextId := s.nextId + 1
         now := s.now + 1 }) := by
  have hta_ne : ta.id ≠ fa.id := by
    intro he
    have : ta = fa :=
      eq_of_id_eq hids (getAccountByNumber_mem ht) (getAccountByNumber_mem hf) he
    exact hne (by
      rw [← getAccountByNumber_number hf, ← getAccountByNumber_number ht, this])
  have h2 :
      getAccountByNumber
        { s with accounts := (s.accounts.map
            (fun b => if b.id = fa.id then
              { fa with balance := fa.balance - amt } else b)) } t =
        some ta := by
    show (s.accounts.map _).find? _ = _
    rw [find?_number_map _ s.accounts ?_ t]
    · have ht' : s.accounts.find? (fun a => a.accountNumber == t) = some ta := ht
      rw [ht']
      simp [hta_ne]
    · intro b hb
      by_cases hid : b.id = fa.id
      · have hba : b = fa := eq_of_id_eq hids hb (getAccountByNumber_mem hf) hid
        subst hba
        simp [hid]
      · simp [hid]
  unfold transferRoute
  rw [if_neg (not_le.mpr hamt), if_neg hne, hf, ht]
  dsimp only
  rw [if_neg (not_lt.mpr hbal),
    updateAccountBalance_eq s f (fa.balance - amt) fa hf]
  dsimp only
  rw [updateAccountBalance_eq _ t (ta.balance + amt) ta h2]
  rfl

/-- `storage.createAccount` on a fresh account number: the inserted record. -/
lemma storageCreateAccount_fresh (s : State) (ia : InsertAccount)
    (h : getAccountByNumber s ia.accountNumber = none) :
    storageCreateAccount s ia =
      (.ok ⟨s.nextId, ia.accountNumber, ia.name, ia.balance.getD 0, s.now⟩,
       { s with
          accounts := (s.accounts ++
            [⟨s.nextId, ia.accountNumber, ia.name, ia.balance.getD 0, s.now⟩])
          nextId := s.nextId + 1
          now := s.now + 1 }) := by
  unfold storageCreateAccount
  rw [h]

/-- `storage.createAccount` on a taken account number: the throw, state
untouched. -/
lemma storageCreateAccount_dup (s : State) (ia : InsertAccount) (a : Account)
    (h : getAccountByNumber s ia.accountNumber = some a) :
    storageCreateAccount s ia = (.error .duplicateAccount, s) := by
  unfold storageCreateAccount
  rw [h]

/-- The create route on a taken account number: 400, state untouched. -/
lemma createAccountRoute_dup (s : State) (ia : InsertAccount) (a : Account)
    (h : getAccountByNumber s ia.accountNumber = some a) :
    createAccountRoute s ia = (.error .duplicateAccount, s) := by
  unfold createAccountRoute
  rw [storageCreateAccount_dup s ia a h]

/-- The create route on a fresh account number: the account is inserted, and
an initial `deposit` transaction is appended exactly when the balance is
positive. -/
lemma createAccountRoute_fresh (s : State) (ia : InsertAccount)
    (h : getAccountByNumber s ia.accountNumber = none) :
    createAccountRoute s ia =
      (.ok ⟨s.nextId, ia.accountNumber, ia.name, ia.balance.getD 0, s.now⟩,
       if ia.balance.getD 0 > 0 then
         { accounts := (s.accounts ++
             [⟨s.nextId, ia.accountNumber, ia.name, ia.balance.getD 0, s.now⟩])
           transactions := (s.transactions ++
             [⟨s.nextId + 1, "deposit", none, some s.nextId,
               ia.balance.getD 0, s.now + 1⟩])
           nextId := s.nextId + 2
           now := s.now + 2 }
       else
         { accounts := (s.accounts ++
             [⟨s.nextId, ia.accountNumber, ia.name, ia.balance.getD 0, s.now⟩])
           transactions := s.transactions
           nextId := s.nextId + 1
           now := s.now + 1 }) := by
  unfold createAccountRoute
  rw [storageCreateAccount_fresh s ia h]
  dsimp only
  by_cases hb : ia.balance.getD 0 > 0
  · rw [if_pos hb, if_pos hb]
    rfl
  · rw [if_neg hb, if_neg hb]

/-- The deposit route with a non-positive amount: rejected, state untouched. -/
lemma depositRoute_nonpos (s : State) (n : Int) (amt : Rat) (h : amt ≤ 0) :
    depositRoute s n amt = (.error .invalidInput, s) := by
  unfold depositRoute
  rw [if_pos h]

/-- The deposit route on a missing account: rejected, state untouched. -/
lemma depositRoute_notFound (s : State) (n : Int) (amt : Rat)
    (h1 : ¬ amt ≤ 0) (h2 : getAccountByNumber s n = none) :
    depositRoute s n amt = (.error .accountNotFound, s) := by
  unfold depositRoute
  rw [if_neg h1, h2]

/-- Full characterisation of a successful deposit. -/
lemma depositRoute_success (s : State) (n : Int) (amt : Rat) (a : Account)
    (hamt : 0 < amt) (hfind : getAccountByNumber s n = some a) :
    depositRoute s n amt =
      (.ok { a with balance := a.balance + amt },
       { accounts := (s.accounts.map
           (fun b => if b.id = a.id then
             { a with balance := a.balance + amt } else b))
         transactions := (s.transactions ++
           [⟨s.nextId, "deposit", none, some a.id, amt, s.now⟩])
         nextId := s.nextId + 1
         now := s.now + 1 }) := by
  unfold depositRoute
  rw [if_neg (not_le.mpr hamt), hfind]
  dsimp only
  rw [updateAccountBalance_eq s n (a.balance + amt) a hfind]
  rfl

/-- The withdraw route with a non-positive amount: rejected, state
untouched. -/
lemma withdrawRoute_nonpos (s : State) (n : Int) (amt : Rat) (h : amt ≤ 0) :
    withdrawRoute s n amt = (.error .invalidInput, s) := by
  unfold withdrawRoute
  rw [if_pos h]

/-- The withdraw route on a missing account: rejected, state untouched. -/
lemma withdrawRoute_notFound (s : State) (n : Int) (amt : Rat)
    (h1 : ¬ amt ≤ 0) (h2 : getAccountByNumber s n = none) :
    withdrawRoute s n amt = (.error .accountNotFound, s) := by
  unfold withdrawRoute
  rw [if_neg h1, h2]

/-- The withdraw route against a balance smaller than the amount: rejected,
state untouched. -/
lemma withdrawRoute_insufficient (s : State) (n : Int) (amt : Rat)
    (a : Account) (h1 : ¬ amt ≤ 0) (h2 : getAccountByNumber s n = some a)
    (h3 : a.balance < amt) :
    withdrawRoute s n amt = (.error .insufficientFunds, s) := by
  unfold withdrawRoute
  rw [if_neg h1, h2]
  dsimp only
  rw [if_pos h3]

/-- Full characterisation of a successful withdrawal. -/
lemma withdrawRoute_success (s : State) (n : Int) (amt : Rat) (a : Account)
    (hamt : 0 < amt) (hfind : getAccountByNumber s n = some a)
    (hbal : amt ≤ a.balance) :
    withdrawRoute s n amt =
      (.ok { a with balance := a.balance - amt },
       { accounts := (s.accounts.map
           (fun b => if b.id = a.id then
             { a with balance := a.balance - amt } else b))
         transactions := (s.transactions ++
           [⟨s.nextId, "withdraw", some a.id, none, amt, s.now⟩])
         nextId := s.nextId + 1
         now := s.now + 1 }) := by
  unfold withdrawRoute
  rw [if_neg (not_le.mpr hamt), hfind]
  dsimp only
  rw [if_neg (not_lt.mpr hbal),
    updateAccountBalance_eq s n (a.balance - amt) a hfind]
  rfl

/-- The transfer route with a non-positive amount: rejected, state
untouched. -/
lemma transferRoute_nonpos (s : State) (f t : Int) (amt : Rat)
    (h : amt ≤ 0) : transferRoute s f t amt = (.error .invalidInput, s) := by
  unfold transferRoute
  rw [if_pos h]

/-- The transfer route on equal account numbers: rejected before either
lookup, state untouched. -/
lemma transferRoute_same (s : State) (n : Int) (amt : Rat)
    (h : ¬ amt ≤ 0) :
    transferRoute s n n amt = (.error .sameAccountTransfer, s) := by
  unfold transferRoute
  rw [if_neg h, if_pos rfl]

/-- The transfer route with a missing source account: rejected, state
untouched. -/
lemma transferRoute_noFrom (s : State) (f t : Int) (amt : Rat)
    (h1 : ¬ amt ≤ 0) (hft : f ≠ t)
    (hf : getAccountByNumber s f = none) :
    transferRoute s f t amt = (.error .accountNotFound, s) := by
  unfold transferRoute
  rw [if_neg h1, if_neg hft, hf]

/-- The transfer route with a missing destination account: rejected, state
untouched. -/
lemma transferRoute_noTo (s : State) (f t : Int) (amt : Rat) (fa : Account)
    (h1 : ¬ amt ≤ 0) (hft : f ≠ t)
    (hf : getAccountByNumber s f = some fa)
    (ht : getAccountByNumber s t = none) :
    transferRoute s f t amt = (.error .accountNotFound, s) := by
  unfold transferRoute
  rw [if_neg h1, if_neg hft, hf, ht]

/-- The transfer route against an insufficient source balance: rejected,
state untouched. -/
lemma transferRoute_insufficient (s : State) (f t : Int) (amt : Rat)
    (fa ta : Account) (h1 : ¬ amt ≤ 0) (hft : f ≠ t)
    (hf : getAccountByNumber s f = some fa)
    (ht : getAccountByNumber s t = some ta)
    (hbal : fa.balance < amt) :
    transferRoute s f t amt = (.error .insufficientFunds, s) := by
  unfold transferRoute
  rw [if_neg h1, if_neg hft, hf, ht]
  dsimp only
  rw [if_pos hbal]

/-- A deposit that returns ok had a positive amount and an existing
account. -/
lemma depositRoute_ok (s : State) (n : Int) (amt : Rat) (r : Account)
    (s' : State) (h : depositRoute s n amt = (.ok r, s')) :
    0 < amt ∧ ∃ a, getAccountByNumber s n = some a := by
  by_cases hamt : amt ≤ 0
  · rw [depositRoute_nonpos s n amt hamt] at h
    simp at h
  · refine ⟨not_le.mp hamt, ?_⟩
    cases hfind : getAccountByNumber s n with
    | none =>
      rw [depositRoute_notFound s n amt hamt hfind] at h
      simp at h
    | some a => exact ⟨a, rfl⟩

/-- A withdrawal that returns ok had a positive amount, an existing account,
and a sufficient balance. -/
lemma withdrawRoute_ok (s : State) (n : Int) (amt : Rat) (r : Account)
    (s' : State) (h : withdrawRoute s n amt = (.ok r, s')) :
    0 < amt ∧ ∃ a, getAccountByNumber s n = some a ∧ amt ≤ a.balance := by
  by_cases hamt : amt ≤ 0
  · rw [withdrawRoute_nonpos s n amt hamt] at h
    simp at h
  · refine ⟨not_le.mp hamt, ?_⟩
    cases hfind : getAccountByNumber s n with
    | none =>
      rw [withdrawRoute_notFound s n amt hamt hfind] at h
      simp at h
    | some a =>
      by_cases hbal : a.balance < amt
      · rw [withdrawRoute_insufficient s n amt a hamt hfind hbal] at h
        simp at h
      · exact ⟨a, rfl, not_lt.mp hbal⟩

/-- A transfer that returns ok passed all five guards. -/
lemma transferRoute_ok (s : State) (f t : Int) (amt : Rat)
    (r : Account × Account) (s' : State)
    (h : transferRoute s f t amt = (.ok r, s')) :
    0 < amt ∧ f ≠ t ∧ ∃ fa ta, getAccountByNumber s f = some fa ∧
      getAccountByNumber s t = some ta ∧ amt ≤ fa.balance := by
  by_cases hamt : amt ≤ 0
  · rw [transferRoute_nonpos s f t amt hamt] at h
    simp at h
  · by_cases hft : f = t
    · subst hft
      rw [transferRoute_same s f amt hamt] at h
      simp at h
    · refine ⟨not_le.mp hamt, hft, ?_⟩
      cases hf : getAccountByNumber s f with
      | none =>
        rw [transferRoute_noFrom s f t amt hamt hft hf] at h
        simp at h
      | some fa =>
        cases ht : getAccountByNumber s t with
        | none =>
          rw [transferRoute_noTo s f t amt fa hamt hft hf ht] at h
          simp at h
        | some ta =>
          by_cases hbal : fa.balance < amt
          · rw [transferRoute_insufficient s f t amt fa ta hamt hft hf ht
              hbal] at h
            simp at h
          · exact ⟨fa, ta, rfl, rfl, not_lt.mp hbal⟩

/-- The replacement map keeps balances non-negative when the replacement's
balance is. -/
lemma nonneg_map_replace {l : List Account} {i : Nat} {u : Account}
    (h : ∀ b ∈ l, 0 ≤ b.balance) (hu : 0 ≤ u.balance) :
    ∀ b ∈ l.map (fun c => if c.id = i then u else c), 0 ≤ b.balance := by
  intro b hb
  rcases List.mem_map.mp hb with ⟨c, hc, rfl⟩
  by_cases hci : c.id = i
  · simpa [hci] using hu
  · simpa [hci] using h c hc

lemma nonneg_applyOp (s : State) (op : Op) (hids : NodupIds s)
    (h : NonNeg s) (hop : createNonNeg op) : NonNeg (applyOp s op) := by
  cases op with
  | create ia =>
    show NonNeg (createAccountRoute s ia).2
    cases hfind : getAccountByNumber s ia.accountNumber with
    | some a =>
      rw [createAccountRoute_dup s ia a hfind]
      exact h
    | none =>
      rw [createAccountRoute_fresh s ia hfind]
      have hnew : (0:Rat) ≤ ia.balance.getD 0 := hop
      by_cases hb : ia.balance.getD 0 > 0
      · rw [if_pos hb]
        intro b hbm
        rcases List.mem_append.mp hbm with hbm | hbm
        · exact h b hbm
        · simp only [List.mem_singleton] at hbm
          subst hbm
          exact hnew
      · rw [if_neg hb]
        intro b hbm
        rcases List.mem_append.mp hbm with hbm | hbm
        · exact h b hbm
        · simp only [List.mem_singleton] at hbm
          subst hbm
          exact hnew
  | deposit n amt =>
    show NonNeg (depositRoute s n amt).2
    by_cases hamt : amt ≤ 0
    · rw [depositRoute_nonpos s n amt hamt]
      exact h
    · cases hfind : getAccountByNumber s n with
      | none =>
        rw [depositRoute_notFound s n amt hamt hfind]
        exact h
      | some a =>
        rw [depositRoute_success s n amt a (not_le.mp hamt) hfind]
        intro b hbm
        have ha := h a (getAccountByNumber_mem hfind)
        have hamt' : (0:Rat) < amt := not_le.mp hamt
        exact nonneg_map_replace h
          (by show (0:Rat) ≤ a.balance + amt; linarith) b hbm
  | withdraw n amt =>
    show NonNeg (withdrawRoute s n amt).2
    by_cases hamt : amt ≤ 0
    · rw [withdrawRoute_nonpos s n amt hamt]
      exact h
    · cases hfind : getAccountByNumber s n with
      | none =>
        rw [withdrawRoute_notFound s n amt hamt hfind]
        exact h
      | some a =>
        by_cases hbal : a.balance < amt
        · rw [withdrawRoute_insufficient s n amt a hamt hfind hbal]
          exact h
        · rw [withdrawRoute_success s n amt a (not_le.mp hamt) hfind
            (not_lt.mp hbal)]
          intro b hbm
          have hbal' := not_lt.mp hbal
          exact nonneg_map_replace h
            (by show (0:Rat) ≤ a.balance - amt; linarith) b hbm
  | transfer f t amt =>
    show NonNeg (transferRoute s f t amt).2
    by_cases hamt : amt ≤ 0
    · rw [transferRoute_nonpos s f t amt hamt]
      exact h
    · by_cases hft : f = t
      · subst hft
        rw [transferRoute_same s f amt hamt]
        exact h
      · cases hf : getAccountByNumber s f with
        | none =>
          rw [transferRoute_noFrom s f t amt hamt hft hf]
          exact h
        | some fa =>
          cases ht : getAccountByNumber s t with
          | none =>
            rw [transferRoute_noTo s f t amt fa hamt hft hf ht]
            exact h
          | some ta =>
            by_cases hbal : fa.balance < amt
            · rw [transferRoute_insufficient s f t amt fa ta hamt hft hf ht
                hbal]
              exact h
            · rw [transferRoute_success s f t amt fa ta hids hf ht hft
                (not_le.mp hamt) (not_lt.mp hbal)]
              intro b hbm
              have hfa := h fa (getAccountByNumber_mem hf)
              have hta := h ta (getAccountByNumber_mem ht)
              have hamt' : (0:Rat) < amt := not_le.mp hamt
              have hbal' := not_lt.mp hbal
              refine nonneg_map_replace (nonneg_map_replace h ?_) ?_ b hbm
              · show (0:Rat) ≤ fa.balance - amt
                linarith
              · show (0:Rat) ≤ ta.balance + amt
                linarith

lemma reachable_runOps (s : State) (ops : List Op) (h : Reachable s) :
    Reachable (runOps s ops) := by
  induction ops generalizing s with
  | nil => exact h
  | cons op rest ih => exact ih (applyOp s op) (Reachable.step s op h)

lemma nonneg_runOps (s : State) (ops : List Op) (hs : Reachable s)
    (h : NonNeg s) (hops : ∀ op ∈ ops, createNonNeg op) :
    NonNeg (runOps s ops) := by
  induction ops generalizing s with
  | nil => exact h
  | cons op rest ih =>
    exact ih (applyOp s op) (Reachable.step s op hs)
      (nonneg_applyOp s op (reachable_inv hs).nodupIds h
        (hops op (List.mem_cons_self op rest)))
      fun o ho => hops o (List.mem_cons_of_mem op ho)

/-- ok-inversion of the create route: the number was fresh, the returned
account is the inserted record, and it was appended to the account list. -/
lemma createAccountRoute_ok_inv (s : State) (ia : InsertAccount)
    (a : Account) (s1 : State)
    (h : createAccountRoute s ia = (.ok a, s1)) :
    getAccountByNumber s ia.accountNumber = none ∧
    a = ⟨s.nextId, ia.accountNumber, ia.name, ia.balance.getD 0, s.now⟩ ∧
    s1.accounts = s.accounts ++ [a] := by
  cases hfind : getAccountByNumber s ia.accountNumber with
  | some b =>
    rw [createAccountRoute_dup s ia b hfind] at h
    simp at h
  | none =>
    rw [createAccountRoute_fresh s ia hfind, Prod.mk.injEq] at h
    obtain ⟨hr, hs1⟩ := h
    have ha : a = ⟨s.nextId, ia.accountNumber, ia.name,
        ia.balance.getD 0, s.now⟩ := (Except.ok.inj hr).symm
    refine ⟨rfl, ha, ?_⟩
    rw [← hs1, ← ha]
    by_cases hb : ia.balance.getD 0 > 0
    · rw [if_pos hb]
    · rw [if_neg hb]

/-- A map whose function preserves the identifying fields, and fixes every
account whose number is untargeted, satisfies the frame predicate. -/
lemma accountsFrame_map (l : List Account) (g : Account → Account)
    (targets : List Int)
    (hg : ∀ b ∈ l, (g b).id = b.id ∧ (g b).accountNumber = b.accountNumber ∧
      (g b).name = b.name ∧ (g b).createdAt = b.createdAt)
    (hfix : ∀ b ∈ l, b.accountNumber ∉ targets → g b = b) :
    accountsFrame l (l.map g) targets := by
  refine ⟨List.length_map l g, ?_⟩
  intro i h1 h2
  have hget : (l.map g).get ⟨i, h2⟩ = g (l.get ⟨i, h1⟩) := List.get_map g
  have hmem : l.get ⟨i, h1⟩ ∈ l := List.get_mem l i h1
  rw [hget]
  exact ⟨hg _ hmem, fun hnot => hfix _ hmem hnot⟩

/-- C1 counterexample: a createAccount call violating all three stated
constraints (non-positive `accountNumber`, empty `name`, negative
`initialBalance`) is not rejected with `InvalidInput`: it succeeds and the
account is inserted. -/
theorem createAccount_invalid_accepted_counterexample :
    (createAccountRoute emptyState ⟨-3, "", some (-5)⟩).1 =
      .ok ⟨0, -3, "", -5, 0⟩ ∧
    (createAccountRoute emptyState ⟨-3, "", some (-5)⟩).2.accounts =
      [⟨0, -3, "", -5, 0⟩] := by
  constructor <;> rfl

/-- C1 (amended): `insertAccountSchema.parse` performs only type-shape
validation, so any well-typed createAccount call on a fresh account number
succeeds — even when the stated range constraints are violated — inserting
the account; a deposit transaction is appended only when the resulting
balance is positive, so none is appended for the violating (non-positive)
balances. -/
theorem createAccount_no_range_validation (s : State) (ia : InsertAccount)
    (h : getAccountByNumber s ia.accountNumber = none) :
    (createAccountRoute s ia).1 =
      .ok ⟨s.nextId, ia.accountNumber, ia.name, ia.balance.getD 0, s.now⟩ ∧
    (createAccountRoute s ia).2.accounts = s.accounts ++
      [⟨s.nextId, ia.accountNumber, ia.name, ia.balance.getD 0, s.now⟩] ∧
    (ia.balance.getD 0 ≤ 0 →
      (createAccountRoute s ia).2.transactions = s.transactions) := by
  rw [createAccountRoute_fresh s ia h]
  refine ⟨rfl, ?_, ?_⟩
  · by_cases hb : ia.balance.getD 0 > 0
    · rw [if_pos hb]
    · rw [if_neg hb]
  · intro hle
    rw [if_neg (not_lt.mpr hle)]

theorem createAccount_no_range_validation_witness :
    (createAccountRoute emptyState ⟨-3, "", some (-5)⟩).1 =
      .ok ⟨0, -3, "", -5, 0⟩ ∧
    (createAccountRoute emptyState ⟨-3, "", some (-5)⟩).2.accounts =
      [⟨0, -3, "", -5, 0⟩] ∧
    (createAccountRoute emptyState ⟨-3, "", some (-5)⟩).2.transactions =
      [] := by
  have h := createAccount_no_range_validation emptyState
    ⟨-3, "", some (-5)⟩ rfl
  exact ⟨h.1, h.2.1, h.2.2 (by decide)⟩

/-- C2 counterexample: one createAccount call with a negative initial
balance (accepted, see C1) reaches a state holding a negative balance. -/
theorem nonneg_balance_counterexample :
    ∃ a ∈ (runOps emptyState [.create ⟨1, "A", some (-5)⟩]).accounts,
      a.balance < 0 := by decide

/-- C2 (amended): in every state reachable from the empty ledger by a
sequence of operations in which each createAccount carries a non-negative
initial balance (the restriction forced by the missing input validation),
every account balance is non-negative. -/
theorem nonneg_balances (ops : List Op)
    (hops : ∀ op ∈ ops, createNonNeg op) :
    ∀ a ∈ (runOps emptyState ops).accounts, 0 ≤ a.balance :=
  nonneg_runOps emptyState ops Reachable.empty
    (fun a ha => absurd ha (List.not_mem_nil a)) hops

theorem nonneg_balances_witness :
    (0 : Rat) ≤ (Account.mk 0 1 "Alice" 67 0).balance :=
  nonneg_balances
    [.create ⟨1, "Alice", some 100⟩, .create ⟨2, "Bob", none⟩,
     .transfer 1 2 40, .withdraw 2 10, .deposit 1 7, .withdraw 1 1000]
    (by decide) ⟨0, 1, "Alice", 67, 0⟩ (by with_unfolding_all decide)

/-- C4: once a createAccount call has succeeded, a second call with the same
account number fails with `DuplicateAccount`, leaves the state untouched,
and the account created by the first call (its id, name, balance and
creation time) is still found unchanged. -/
theorem duplicate_create (s : State) (ia ia2 : InsertAccount) (a : Account)
    (s1 : State) (h1 : createAccountRoute s ia = (.ok a, s1))
    (h2 : ia2.accountNumber = ia.accountNumber) :
    createAccountRoute s1 ia2 = (.error .duplicateAccount, s1) ∧
    getAccountByNumber (createAccountRoute s1 ia2).2 ia.accountNumber =
      some a := by
  obtain ⟨hnone, ha, hacc⟩ := createAccountRoute_ok_inv s ia a s1 h1
  have hfind1 : getAccountByNumber s1 ia.accountNumber = some a := by
    show s1.accounts.find? _ = some a
    rw [hacc, List.find?_append]
    have hn : s.accounts.find?
        (fun x => x.accountNumber == ia.accountNumber) = none := hnone
    rw [hn, Option.none_or]
    subst ha
    simp
  have hdup : createAccountRoute s1 ia2 = (.error .duplicateAccount, s1) := by
    apply createAccountRoute_dup s1 ia2 a
    rw [h2]
    exact hfind1
  exact ⟨hdup, by rw [hdup]; exact hfind1⟩

theorem duplicate_create_witness :
    createAccountRoute sAlice ⟨1, "Bob", none⟩ =
      (.error .duplicateAccount, sAlice) ∧
    getAccountByNumber (createAccountRoute sAlice ⟨1, "Bob", none⟩).2 1 =
      some ⟨0, 1, "Alice", 5, 0⟩ :=
  duplicate_create emptyState ⟨1, "Alice", some 5⟩ ⟨1, "Bob", none⟩
    ⟨0, 1, "Alice", 5, 0⟩ sAlice (by decide) rfl

/-- C5: withdrawing a positive amount exceeding the balance of an existing
account fails with `InsufficientFunds`, the account keeps its balance, and
no transaction is appended (the state is untouched). -/
theorem withdraw_insufficient_funds (s : State) (n : Int) (amt : Rat)
    (a : Account) (hamt : 0 < amt)
    (hfind : getAccountByNumber s n = some a) (hbal : a.balance < amt) :
    withdrawRoute s n amt = (.error .insufficientFunds, s) ∧
    getAccountByNumber (withdrawRoute s n amt).2 n = some a ∧
    (withdrawRoute s n amt).2.transactions = s.transactions := by
  have h := withdrawRoute_insufficient s n amt a (not_le.mpr hamt) hfind hbal
  exact ⟨h, by rw [h]; exact hfind, by rw [h]⟩

theorem withdraw_insufficient_funds_witness :
    withdrawRoute s200 200 10 = (.error .insufficientFunds, s200) ∧
    getAccountByNumber (withdrawRoute s200 200 10).2 200 =
      some ⟨0, 200, "Bob", 0, 0⟩ ∧
    (withdrawRoute s200 200 10).2.transactions = s200.transactions :=
  withdraw_insufficient_funds s200 200 10 ⟨0, 200, "Bob", 0, 0⟩
    (by decide) (by decide) (by decide)

/-- C7: a transfer between equal account numbers (with positive amount)
fails with `SameAccountTransfer` and leaves the state untouched; the
statement holds for every state — in particular states in which no such
account exists — showing the rejection happens before any lookup. -/
theorem transfer_same_account (s : State) (n : Int) (amt : Rat)
    (hamt : 0 < amt) :
    transferRoute s n n amt = (.error .sameAccountTransfer, s) :=
  transferRoute_same s n amt (not_le.mpr hamt)

theorem transfer_same_account_witness :
    transferRoute emptyState 7 7 5 =
      (.error .sameAccountTransfer, emptyState) :=
  transfer_same_account emptyState 7 5 (by decide)

/-- C3: over any sequence of transfer calls that all succeed, the sum of all
account balances is invariant (ids unique, as every `Map`-backed state
has). -/
theorem transfer_conservation (s : State) (l : List (Int × Int × Rat))
    (hids : NodupIds s) (h : allTransfersOk s l = true) :
    totalBalance (runTransfers s l) = totalBalance s := by
  induction l generalizing s with
  | nil => rfl
  | cons p rest ih =>
    obtain ⟨f, t, amt⟩ := p
    unfold allTransfersOk at h
    rw [Bool.and_eq_true] at h
    obtain ⟨h1, h2⟩ := h
    cases hr : (transferRoute s f t amt).1 with
    | error e =>
      rw [hr] at h1
      simp at h1
    | ok r =>
      have hfull : transferRoute s f t amt =
          (.ok r, (transferRoute s f t amt).2) := by
        rw [← hr]
      obtain ⟨hamt, hft, fa, ta, hf, ht, hbal⟩ :=
        transferRoute_ok s f t amt r (transferRoute s f t amt).2 hfull
      have hfa_mem := getAccountByNumber_mem hf
      have hta_mem := getAccountByNumber_mem ht
      have hta_ne : ta.id ≠ fa.id := by
        intro he
        have heq : ta = fa := eq_of_id_eq hids hta_mem hfa_mem he
        exact hft (by
          rw [← getAccountByNumber_number hf,
            ← getAccountByNumber_number ht, heq])
      have hs := transferRoute_success s f t amt fa ta hids hf ht hft hamt hbal
      have hids' : NodupIds (transferRoute s f t amt).2 := by
        rw [hs]
        show ((List.map (fun b => if b.id = ta.id then
            { ta with balance := ta.balance + amt } else b)
            (List.map (fun b => if b.id = fa.id then
              { fa with balance := fa.balance - amt } else b)
              s.accounts)).map (fun x => x.id)).Nodup
        rw [ids_map_replace _ ta.id { ta with balance := ta.balance + amt }
            rfl,
          ids_map_replace s.accounts fa.id
            { fa with balance := fa.balance - amt } rfl]
        exact hids
      have hta_mem1 : ta ∈ s.accounts.map
          (fun b => if b.id = fa.id then
            { fa with balance := fa.balance - amt } else b) := by
        refine List.mem_map.mpr ⟨ta, hta_mem, ?_⟩
        simp [hta_ne]
      have hn1 : ((s.accounts.map
          (fun b => if b.id = fa.id then
            { fa with balance := fa.balance - amt } else b)).map
          (fun x => x.id)).Nodup := by
        rw [ids_map_replace s.accounts fa.id
            { fa with balance := fa.balance - amt } rfl]
        exact hids
      have hstep : totalBalance (transferRoute s f t amt).2 =
          totalBalance s := by
        rw [hs]
        show (((s.accounts.map
            (fun b => if b.id = fa.id then
              { fa with balance := fa.balance - amt } else b)).map
            (fun b => if b.id = ta.id then
              { ta with balance := ta.balance + amt } else b)).map
            (fun x => x.balance)).sum =
          (s.accounts.map (fun x => x.balance)).sum
        rw [sum_map_replace _ ta { ta with balance := ta.balance + amt }
            hta_mem1 hn1,
          sum_map_replace s.accounts fa
            { fa with balance := fa.balance - amt } hfa_mem hids]
        dsimp only
        ring
      calc totalBalance (runTransfers s ((f, t, amt) :: rest))
          = totalBalance (runTransfers (transferRoute s f t amt).2 rest) :=
            rfl
        _ = totalBalance (transferRoute s f t amt).2 :=
            ih (transferRoute s f t amt).2 hids' h2
        _ = totalBalance s := hstep

theorem transfer_conservation_witness :
    totalBalance (runTransfers sDemo [(2, 1, 10), (1, 2, 25)]) =
      totalBalance sDemo :=
  transfer_conservation sDemo [(2, 1, 10), (1, 2, 25)] (by decide)
    (by with_unfolding_all decide)

/-- C6: a transfer passing all guards debits the source by exactly the
amount, credits the destination by exactly the amount, and appends exactly
one `transfer` transaction carrying the source and destination account ids
and the amount. -/
theorem transfer_success_effect (s : State) (f t : Int) (amt : Rat)
    (fa ta : Account) (hids : NodupIds s)
    (hf : getAccountByNumber s f = some fa)
    (ht : getAccountByNumber s t = some ta)
    (hne : f ≠ t) (hamt : 0 < amt) (hbal : amt ≤ fa.balance) :
    (transferRoute s f t amt).1 =
      .ok ({ fa with balance := fa.balance - amt },
           { ta with balance := ta.balance + amt }) ∧
    getAccountByNumber (transferRoute s f t amt).2 f =
      some { fa with balance := fa.balance - amt } ∧
    getAccountByNumber (transferRoute s f t amt).2 t =
      some { ta with balance := ta.balance + amt } ∧
    (transferRoute s f t amt).2.transactions =
      s.transactions ++
        [⟨s.nextId, "transfer", some fa.id, some ta.id, amt, s.now⟩] := by
  have hfa_mem := getAccountByNumber_mem hf
  have hta_mem := getAccountByNumber_mem ht
  have hta_ne : ta.id ≠ fa.id := by
    intro he
    have heq : ta = fa := eq_of_id_eq hids hta_mem hfa_mem he
    exact hne (by
      rw [← getAccountByNumber_number hf, ← getAccountByNumber_number ht, heq])
  have hfa_ne : fa.id ≠ ta.id := fun he => hta_ne he.symm
  have hs := transferRoute_success s f t amt fa ta hids hf ht hne hamt hbal
  have hpres1 : ∀ b ∈ s.accounts,
      ((if b.id = fa.id then { fa with balance := fa.balance - amt }
        else b) : Account).accountNumber = b.accountNumber := by
    intro b hb
    by_cases hid : b.id = fa.id
    · have hba : b = fa := eq_of_id_eq hids hb hfa_mem hid
      subst hba
      simp [hid]
    · simp [hid]
  have hpres2 : ∀ b ∈ s.accounts.map
      (fun b => if b.id = fa.id then
        { fa with balance := fa.balance - amt } else b),
      ((if b.id = ta.id then { ta with balance := ta.balance + amt }
        else b) : Account).accountNumber = b.accountNumber := by
    intro b hb
    rcases List.mem_map.mp hb with ⟨c, hc, rfl⟩
    by_cases hcf : c.id = fa.id
    · have hcfa : c = fa := eq_of_id_eq hids hc hfa_mem hcf
      subst hcfa
      simp [hcf, hfa_ne]
    · by_cases hct : c.id = ta.id
      · have hcta : c = ta := eq_of_id_eq hids hc hta_mem hct
        subst hcta
        simp [hcf, hct]
      · simp [hcf, hct]
  refine ⟨by rw [hs], ?_, ?_, by rw [hs]⟩
  · rw [hs]
    show ((s.accounts.map (fun b => if b.id = fa.id then
        { fa with balance := fa.balance - amt } else b)).map
        (fun b => if b.id = ta.id then
          { ta with balance := ta.balance + amt } else b)).find?
        (fun a => a.accountNumber == f) = _
    rw [find?_number_map _ _ hpres2 f, find?_number_map _ _ hpres1 f]
    have hf' : s.accounts.find? (fun a => a.accountNumber == f) =
        some fa := hf
    rw [hf']
    simp [hfa_ne]
  · rw [hs]
    show ((s.accounts.map (fun b => if b.id = fa.id then
        { fa with balance := fa.balance - amt } else b)).map
        (fun b => if b.id = ta.id then
          { ta with balance := ta.balance + amt } else b)).find?
        (fun a => a.accountNumber == t) = _
    rw [find?_number_map _ _ hpres2 t, find?_number_map _ _ hpres1 t]
    have ht' : s.accounts.find? (fun a => a.accountNumber == t) =
        some ta := ht
    rw [ht']
    simp [hta_ne]

theorem transfer_success_effect_witness :
    (transferRoute sTwo 1 2 40).1 =
      .ok (⟨0, 1, "Alice", 60, 0⟩, ⟨2, 2, "Bob", 40, 2⟩) ∧
    getAccountByNumber (transferRoute sTwo 1 2 40).2 1 =
      some ⟨0, 1, "Alice", 60, 0⟩ ∧
    getAccountByNumber (transferRoute sTwo 1 2 40).2 2 =
      some ⟨2, 2, "Bob", 40, 2⟩ ∧
    (transferRoute sTwo 1 2 40).2.transactions =
      sTwo.transactions ++ [⟨3, "transfer", some 0, some 2, 40, 3⟩] := by
  with_unfolding_all exact (transfer_success_effect sTwo 1 2 40
    ⟨0, 1, "Alice", 100, 0⟩ ⟨2, 2, "Bob", 0, 2⟩ (by decide) (by decide)
    (by decide) (by decide) (by decide) (by decide))

/-- C8: the dashboard aggregate is computed from the current state: the
account count, the sum of all deposit amounts, the sum of all withdrawal
amounts, and the number of transfer transactions. -/
theorem dashboard_stats_correct (s : State) :
    getDashboardStats s =
      { totalAccounts := s.accounts.length
        totalDeposits := ((s.transactions.filter
            (fun t => t.type == "deposit")).map (fun t => t.amount)).sum
        totalWithdrawals := ((s.transactions.filter
            (fun t => t.type == "withdraw")).map (fun t => t.amount)).sum
        activeTransfers := (s.transactions.filter
            (fun t => t.type == "transfer")).length } := by
  simp only [getDashboardStats, getAllAccounts]
  rw [foldl_add_amount, foldl_add_amount, sortAsc_length, zero_add, zero_add]

/-- C9: on every reachable state, `getRecentTransactions` returns the
`limit` most recently created transactions — the reverse of the insertion
order, truncated — each annotated with the counterparties' account number
and name resolved in the current state, a missing account silently leaving
the annotation empty. -/
theorem recent_transactions_newest_first (s : State) (limit : Nat)
    (h : Reachable s) :
    getRecentTransactions s limit =
      (s.transactions.reverse.take limit).map (fun t =>
        { transaction := t
          fromAccount := t.fromAccountId.bind fun fid =>
            (getAccount s fid).map fun a => ⟨a.accountNumber, a.name⟩
          toAccount := t.toAccountId.bind fun tid =>
            (getAccount s tid).map fun a => ⟨a.accountNumber, a.name⟩ }) := by
  unfold getRecentTransactions
  rw [sortDesc_eq_reverse s.transactions (reachable_inv h).txSorted]
  rfl

theorem recent_transactions_newest_first_witness :
    getRecentTransactions sDemo 10 =
      [⟨⟨3, "transfer", some 0, some 2, 40, 3⟩,
        some ⟨1, "Alice"⟩, some ⟨2, "Bob"⟩⟩,
       ⟨⟨1, "deposit", none, some 0, 100, 1⟩, none, some ⟨1, "Alice"⟩⟩] :=
  (recent_transactions_newest_first sDemo 10
    (reachable_runOps emptyState _ Reachable.empty)).trans
    (by with_unfolding_all decide)

/-- C10: a successful deposit, withdrawal or transfer changes only the
balance of the targeted account (respectively the two targeted accounts):
every account keeps its id, account number, name and creation time, every
untargeted account keeps its whole record, and the transaction log is only
appended to. -/
theorem mutations_frame (s : State) (n f t : Int) (amt : Rat)
    (hids : NodupIds s) :
    (∀ r s', depositRoute s n amt = (.ok r, s') →
      accountsFrame s.accounts s'.accounts [n] ∧
      ∃ tx, s'.transactions = s.transactions ++ [tx]) ∧
    (∀ r s', withdrawRoute s n amt = (.ok r, s') →
      accountsFrame s.accounts s'.accounts [n] ∧
      ∃ tx, s'.transactions = s.transactions ++ [tx]) ∧
    (∀ r s', transferRoute s f t amt = (.ok r, s') →
      accountsFrame s.accounts s'.accounts [f, t] ∧
      ∃ tx, s'.transactions = s.transactions ++ [tx]) := by
  refine ⟨?_, ?_, ?_⟩
  · intro r s' h
    obtain ⟨hamt, a, hfind⟩ := depositRoute_ok s n amt r s' h
    rw [depositRoute_success s n amt a hamt hfind, Prod.mk.injEq] at h
    obtain ⟨-, hs'⟩ := h
    subst hs'
    constructor
    · refine accountsFrame_map s.accounts
        (fun b => if b.id = a.id then
          { a with balance := a.balance + amt } else b) [n] ?_ ?_
      · intro b hb
        by_cases hbid : b.id = a.id
        · have hba : b = a :=
            eq_of_id_eq hids hb (getAccountByNumber_mem hfind) hbid
          subst hba
          simp [hbid]
        · simp [hbid]
      · intro b hb hnot
        by_cases hbid : b.id = a.id
        · have hba : b = a :=
            eq_of_id_eq hids hb (getAccountByNumber_mem hfind) hbid
          subst hba
          exact absurd (by
            rw [getAccountByNumber_number hfind]
            exact List.mem_singleton_self n) hnot
        · simp [hbid]
    · exact ⟨_, rfl⟩
  · intro r s' h
    obtain ⟨hamt, a, hfind, hbal⟩ := withdrawRoute_ok s n amt r s' h
    rw [withdrawRoute_success s n amt a hamt hfind hbal,
      Prod.mk.injEq] at h
    obtain ⟨-, hs'⟩ := h
    subst hs'
    constructor
    · refine accountsFrame_map s.accounts
        (fun b => if b.id = a.id then
          { a with balance := a.balance - amt } else b) [n] ?_ ?_
      · intro b hb
        by_cases hbid : b.id = a.id
        · have hba : b = a :=
            eq_of_id_eq hids hb (getAccountByNumber_mem hfind) hbid
          subst hba
          simp [hbid]
        · simp [hbid]
      · intro b hb hnot
        by_cases hbid : b.id = a.id
        · have hba : b = a :=
            eq_of_id_eq hids hb (getAccountByNumber_mem hfind) hbid
          subst hba
          exact absurd (by
            rw [getAccountByNumber_number hfind]
            exact List.mem_singleton_self n) hnot
        · simp [hbid]
    · exact ⟨_, rfl⟩
  · intro r s' h
    obtain ⟨hamt, hft, fa, ta, hf, ht, hbal⟩ :=
      transferRoute_ok s f t amt r s' h
    have hfa_mem := getAccountByNumber_mem hf
    have hta_mem := getAccountByNumber_mem ht
    have hta_ne : ta.id ≠ fa.id := by
      intro he
      have heq : ta = fa := eq_of_id_eq hids hta_mem hfa_mem he
      exact hft (by
        rw [← getAccountByNumber_number hf,
          ← getAccountByNumber_number ht, heq])
    have hfa_ne : fa.id ≠ ta.id := fun he => hta_ne he.symm
    rw [transferRoute_success s f t amt fa ta hids hf ht hft hamt hbal,
      Prod.mk.injEq] at h
    obtain ⟨-, hs'⟩ := h
    subst hs'
    constructor
    · show accountsFrame s.accounts
        ((s.accounts.map (fun b => if b.id = fa.id then
          { fa with balance := fa.balance - amt } else b)).map
          (fun b => if b.id = ta.id then
            { ta with balance := ta.balance + amt } else b)) [f, t]
      rw [List.map_map]
      refine accountsFrame_map s.accounts
        ((fun b => if b.id = ta.id then
          { ta with balance := ta.balance + amt } else b) ∘
         (fun b => if b.id = fa.id then
          { fa with balance := fa.balance - amt } else b)) [f, t] ?_ ?_
      · intro b hb
        by_cases hbf : b.id = fa.id
        · have hbfa : b = fa := eq_of_id_eq hids hb hfa_mem hbf
          subst hbfa
          simp [Function.comp, hbf, hfa_ne]
        · by_cases hbt : b.id = ta.id
          · have hbta : b = ta := eq_of_id_eq hids hb hta_mem hbt
            subst hbta
            simp [Function.comp, hbf, hbt]
          · simp [Function.comp, hbf, hbt]
      · intro b hb hnot
        have hbf : b.id ≠ fa.id := by
          intro he
          have hbfa : b = fa := eq_of_id_eq hids hb hfa_mem he
          exact hnot (by
            rw [hbfa, getAccountByNumber_number hf]
            exact List.mem_cons_self f [t])
        have hbt : b.id ≠ ta.id := by
          intro he
          have hbta : b = ta := eq_of_id_eq hids hb hta_mem he
          exact hnot (by
            rw [hbta, getAccountByNumber_number ht]
            simp)
        simp [Function.comp, hbf, hbt]
    · exact ⟨_, rfl⟩

theorem mutations_frame_witness :
    accountsFrame sDemo.accounts
      [⟨0, 1, "Alice", 65, 0⟩, ⟨2, 2, "Bob", 40, 2⟩] [1] ∧
    ∃ tx, ([⟨1, "deposit", none, some 0, 100, 1⟩,
            ⟨3, "transfer", some 0, some 2, 40, 3⟩,
            ⟨4, "deposit", none, some 0, 5, 4⟩] : List Transaction) =
      sDemo.transactions ++ [tx] := by
  with_unfolding_all exact ((mutations_frame sDemo 1 1 2 5 (by decide)).1
    ⟨0, 1, "Alice", 65, 0⟩
    ⟨[⟨0, 1, "Alice", 65, 0⟩, ⟨2, 2, "Bob", 40, 2⟩],
     [⟨1, "deposit", none, some 0, 100, 1⟩,
      ⟨3, "transfer", some 0, some 2, 40, 3⟩,
      ⟨4, "deposit", none, some 0, 5, 4⟩], 5, 5⟩ (by decide))
